import Mathlib

/-
Shallow embedding of the recursive research engine of `src/deep-research.ts`
(`deepResearch` and its helpers), together with the parts of the tool layer
(`AgentResponse`, `Source`) that it consumes.  Oracle calls and tool calls are
modelled as fallible functions (`Except String _` stands for a promise that may
reject); the progress callback stream is modelled as the ordered list of
snapshots passed to `onProgress`.  Branches of one fan-out are evaluated in
submission order (the deterministic schedule of the cooperative model); the
per-branch read-increment-write of `completedQueries` is synchronous in the
source, so the threaded-state model is faithful for the stated properties.
-/

namespace DeepResearch

/-- Citation entry carried by a tool response (tools module, interface Source);
only the two fields formatted by deep-research are modelled. -/
structure Source where
  file_name : String
  file_path : String
deriving DecidableEq, Repr

/-- Tool response (tools module, interface AgentResponse); only the fields read
by deep-research are modelled: mandatory content, optional source list and
optional compliance score. -/
structure AgentResponse where
  content : String
  source : Option (List Source)
  compliance_score : Option String
deriving DecidableEq, Repr

/-- Follow-up question with rationale, as produced by the question oracle. -/
structure Question where
  question : String
  rationale : String
deriving DecidableEq, Repr

/-- Research tool: name, description, and a fallible execute (an error models a
rejected promise / thrown exception). -/
structure Tool where
  name : String
  description : String
  execute : String → Except String AgentResponse

/-- External environment: the reasoning oracle behind determineResearchTool
(classify), the tool catalog (researchTools), and the oracle behind
generateFollowUpQuestions (expand).  All are black boxes per the spec. -/
structure Env where
  classify : String → Except String String
  catalog : List Tool
  expand : String → String → Nat → List String → Except String (List Question)

/-- Progress snapshot, deep-research.ts lines 19-27. -/
structure ResearchProgress where
  currentDepth : Nat
  totalDepth : Nat
  currentBreadth : Nat
  totalBreadth : Nat
  currentQuery : Option String
  totalQueries : Nat
  completedQueries : Nat
deriving DecidableEq, Repr

/-- Result record, deep-research.ts lines 29-33; compliance_scores is an
optional field (none models the field being undefined). -/
structure ResearchResult where
  learnings : List String
  sources : List String
  compliance_scores : Option (List String)
deriving DecidableEq, Repr

/-- Limiter capacity, deep-research.ts line 36. -/
def ConcurrencyLimit : Nat := 2

/-- determineResearchTool (lines 39-63): one oracle round-trip, then lookup of
the returned name in the catalog; an unknown name is a fatal error (in the
source the undefined tool crashes at the following property access). -/
def determineResearchTool (env : Env) (query : String) : Except String Tool :=
  match env.classify query with
  | Except.error e => Except.error e
  | Except.ok toolName =>
    match env.catalog.find? (fun t => t.name == toolName) with
    | some t => Except.ok t
    | none => Except.error ("unknown tool: " ++ toolName)

/-- generateFollowUpQuestions (lines 65-99): one oracle round-trip, truncated
to numQuestions entries by slice(0, numQuestions). -/
def generateFollowUpQuestions (env : Env) (query toolDescription : String)
    (numQuestions : Nat) (previousLearnings : List String) :
    Except String (List Question) :=
  match env.expand query toolDescription numQuestions previousLearnings with
  | Except.error e => Except.error e
  | Except.ok qs => Except.ok (qs.take numQuestions)

/-- Output of processAgentResponse. -/
structure ProcessedResponse where
  learnings : List String
  sources : List String
  compliance_score : Option String
deriving DecidableEq, Repr

/-- Source formatting used in processAgentResponse, line 110. -/
def formatSource (s : Source) : String :=
  s.file_name ++ " (" ++ s.file_path ++ ")"

/-- processAgentResponse (lines 101-113): one learning from content, formatted
citation strings (empty when the source field is absent), and the score carried
through unchanged. -/
def processAgentResponse (response : AgentResponse) : ProcessedResponse :=
  { learnings := [response.content]
    sources := (response.source.map (fun l => l.map formatSource)).getD []
    compliance_score := response.compliance_score }

/-- Child breadth, line 177: Math.ceil(breadth / 2). -/
def childBreadth (breadth : Nat) : Nat := (breadth + 1) / 2

/-- Child depth, line 178: depth - 1 (depth is a non-negative integer per the
spec data model, so truncated subtraction agrees with the source). -/
def childDepth (depth : Nat) : Nat := depth - 1

/-- Query synthesized for the recursive call, line 195. -/
def followUpQuery (response : AgentResponse) (q : Question) : String :=
  "Following up on: " ++ response.content ++ "\nContext: " ++ q.rationale

/-- Branch result produced by the catch block, lines 216-220. -/
def emptyBranchResult : ResearchResult :=
  { learnings := [], sources := [], compliance_scores := some [] }

/-- The leaf compliance field, line 211: a JS truthiness test, so an absent
score and the empty-string score both yield undefined (none); otherwise a
one-element list. -/
def leafComplianceScores (cs : Option String) : Option (List String) :=
  match cs with
  | some sc => if sc = "" then none else some [sc]
  | none => none

/-- Insertion-order first-occurrence deduplication: the accumulator fold of
Array.from(new Set(xs)). -/
def jsDedupAux (acc : List String) : List String → List String
  | [] => acc
  | x :: l => if x ∈ acc then jsDedupAux acc l else jsDedupAux (acc ++ [x]) l

/-- Array.from(new Set(xs)) on a list of strings, lines 229-230. -/
def jsSetDedup (l : List String) : List String := jsDedupAux [] l

/-- Aggregation of branch results, lines 227-232 (results.flat() is the
identity on a list of plain objects): learnings and sources are deduplicated,
compliance score lists are concatenated with undefined read as []. -/
def combineResults (rs : List ResearchResult) : ResearchResult :=
  { learnings := jsSetDedup (rs.flatMap (fun r => r.learnings))
    sources := jsSetDedup (rs.flatMap (fun r => r.sources))
    compliance_scores := some (rs.flatMap (fun r => r.compliance_scores.getD [])) }

/-- Progress object freshly allocated by each deepResearch call, lines
130-137. -/
def initialProgress (breadth depth : Nat) : ResearchProgress :=
  { currentDepth := depth, totalDepth := depth, currentBreadth := breadth,
    totalBreadth := breadth, currentQuery := none, totalQueries := 0,
    completedQueries := 0 }

/-- The first reportProgress of a node, lines 156-159. -/
def firstReport (breadth depth : Nat) (questions : List Question) :
    ResearchProgress :=
  { initialProgress breadth depth with
    totalQueries := questions.length
    currentQuery := questions.head?.map Question.question }

/-- The reportProgress object of a recursing branch, lines 187-192. -/
def recurseReport (p : ResearchProgress) (breadth depth : Nat) (q : Question) :
    ResearchProgress :=
  { p with currentDepth := childDepth depth, currentBreadth := childBreadth breadth,
           completedQueries := p.completedQueries + 1,
           currentQuery := some q.question }

/-- The reportProgress object of a leaf branch, lines 203-207. -/
def leafReport (p : ResearchProgress) (q : Question) : ResearchProgress :=
  { p with currentDepth := 0,
           completedQueries := p.completedQueries + 1,
           currentQuery := some q.question }

/-- The leaf branch result, lines 208-212. -/
def leafResult (allLearnings allSources : List String) (cs : Option String) :
    ResearchResult :=
  { learnings := allLearnings, sources := allSources,
    compliance_scores := leafComplianceScores cs }

/-- The fan-out over follow-up questions (lines 163-224), parametric in the
recursive call recur.  Each branch: execute the tool (a failure is caught and
degraded to emptyBranchResult, with no progress report); on success either
recurse (after a progress report) or build the leaf result.  The recursive call
is returned without await in the source, so its rejection bypasses the catch:
here a recur error aborts the whole fan-out.  The shared progress object is
threaded; emitted snapshots are collected in order. -/
def processBranches
    (recur : String → Nat → Nat → List String → List String →
      Except String ResearchResult × List ResearchProgress)
    (tool : Tool) (breadth depth : Nat) (learnings sources : List String) :
    List Question → ResearchProgress →
      Except String (List ResearchResult) × ResearchProgress ×
        List ResearchProgress
  | [], p => (Except.ok [], p, [])
  | q :: qs, p =>
    match tool.execute q.question with
    | Except.error _ =>
      let rest := processBranches recur tool breadth depth learnings sources qs p
      (rest.1.map (fun rs => emptyBranchResult :: rs), rest.2.1, rest.2.2)
    | Except.ok response =>
      let processed := processAgentResponse response
      let allLearnings := learnings ++ processed.learnings
      let allSources := sources ++ processed.sources
      if 0 < childDepth depth then
        let p1 := recurseReport p breadth depth q
        match recur (followUpQuery response q) (childBreadth breadth)
            (childDepth depth) allLearnings allSources with
        | (Except.error e, sub) => (Except.error e, p1, p1 :: sub)
        | (Except.ok r, sub) =>
          let rest :=
            processBranches recur tool breadth depth learnings sources qs p1
          (rest.1.map (fun rs => r :: rs), rest.2.1, (p1 :: sub) ++ rest.2.2)
      else
        let p1 := leafReport p q
        let leaf := leafResult allLearnings allSources processed.compliance_score
        let rest :=
          processBranches recur tool breadth depth learnings sources qs p1
        (rest.1.map (fun rs => leaf :: rs), rest.2.1, p1 :: rest.2.2)

/-- One deepResearch activation (lines 115-233) parametric in the recursive
call: tool selection, question generation (both fatal on failure), first
progress report, fan-out, aggregation. -/
def deepResearchNode (env : Env)
    (recur : String → Nat → Nat → List String → List String →
      Except String ResearchResult × List ResearchProgress)
    (query : String) (breadth depth : Nat) (learnings sources : List String) :
    Except String ResearchResult × List ResearchProgress :=
  match determineResearchTool env query with
  | Except.error e => (Except.error e, [])
  | Except.ok tool =>
    match generateFollowUpQuestions env query tool.description breadth
        learnings with
    | Except.error e => (Except.error e, [])
    | Except.ok questions =>
      let p1 := firstReport breadth depth questions
      let out :=
        processBranches recur tool breadth depth learnings sources questions p1
      match out.1 with
      | Except.error e => (Except.error e, p1 :: out.2.2)
      | Except.ok rs => (Except.ok (combineResults rs), p1 :: out.2.2)

/-- Dead recursion continuation: never invoked when the fuel dominates the
depth, because the guard newDepth > 0 stops the descent first. -/
def noRecur : String → Nat → Nat → List String → List String →
    Except String ResearchResult × List ResearchProgress :=
  fun _ _ _ _ _ => (Except.error "out of fuel", [])

/-- Fueled interpreter of deepResearch.  The fuel only bounds the recursion
stack; with fuel at least the depth argument it never runs out, because each
recursive call decrements depth and recursion only happens while the
decremented depth is positive. -/
def deepResearchAux (env : Env) :
    Nat → String → Nat → Nat → List String → List String →
      Except String ResearchResult × List ResearchProgress
  | 0, query, breadth, depth, learnings, sources =>
    deepResearchNode env noRecur query breadth depth learnings sources
  | fuel + 1, query, breadth, depth, learnings, sources =>
    deepResearchNode env (deepResearchAux env fuel) query breadth depth
      learnings sources

/-- deepResearch: the fueled interpreter with fuel equal to the depth budget,
which suffices (see claim C7). -/
def deepResearch (env : Env) (query : String) (breadth depth : Nat)
    (learnings sources : List String) :
    Except String ResearchResult × List ResearchProgress :=
  deepResearchAux env depth query breadth depth learnings sources

/-- Concrete tool whose execute always succeeds with a bare response. -/
def toolT : Tool :=
  { name := "T", description := "market intelligence"
    execute := fun _ =>
      Except.ok { content := "ans", source := none, compliance_score := none } }

/-- Concrete follow-up question. -/
def qOne : Question := { question := "q1", rationale := "r1" }

/-- Second concrete follow-up question. -/
def qTwo : Question := { question := "q2", rationale := "r2" }

/-- Environment in which every oracle and tool call succeeds and each node
expands to one follow-up question. -/
def envOk : Env :=
  { classify := fun _ => Except.ok "T"
    catalog := [toolT]
    expand := fun _ _ _ _ => Except.ok [qOne] }

/-- Environment whose question oracle succeeds at the root query but fails for
every synthesized follow-up query. -/
def envChildOracleDown : Env :=
  { classify := fun _ => Except.ok "T"
    catalog := [toolT]
    expand := fun q _ _ _ =>
      if q = "root" then Except.ok [qOne] else Except.error "child oracle down" }

/-- Response carrying a citation and a compliance score. -/
def respB : AgentResponse :=
  { content := "cb", source := some [{ file_name := "doc", file_path := "p" }]
    compliance_score := some "s1" }

/-- Tool failing on the first question only. -/
def toolPartial : Tool :=
  { name := "T", description := "d"
    execute := fun qq =>
      if qq = "q1" then Except.error "tool down" else Except.ok respB }

/-- Environment where exactly the first of two follow-up tool calls throws. -/
def envOneBranchFails : Env :=
  { classify := fun _ => Except.ok "T"
    catalog := [toolPartial]
    expand := fun _ _ _ _ => Except.ok [qOne, qTwo] }

/-- Tool whose execute always throws. -/
def toolDown : Tool :=
  { name := "T", description := "d", execute := fun _ => Except.error "down" }

/-- Environment where every branch's tool call throws. -/
def envAllFail : Env :=
  { classify := fun _ => Except.ok "T"
    catalog := [toolDown]
    expand := fun _ _ _ _ => Except.ok [qOne, qTwo] }

/-! Helper lemmas about the JS Set based deduplication. -/

theorem mem_jsDedupAux (l : List String) : ∀ (acc : List String) (y : String),
    y ∈ jsDedupAux acc l ↔ y ∈ acc ∨ y ∈ l := by
  induction l with
  | nil => intro acc y; simp [jsDedupAux]
  | cons x l ih =>
    intro acc y
    by_cases hx : x ∈ acc
    · rw [jsDedupAux, if_pos hx, ih]
      constructor
      · rintro (h | h)
        · exact Or.inl h
        · exact Or.inr (List.mem_cons_of_mem _ h)
      · rintro (h | h)
        · exact Or.inl h
        · rcases List.mem_cons.mp h with h | h
          · exact Or.inl (h ▸ hx)
          · exact Or.inr h
    · rw [jsDedupAux, if_neg hx, ih]
      simp [or_assoc, List.mem_append]

theorem nodup_jsDedupAux (l : List String) : ∀ acc : List String,
    acc.Nodup → (jsDedupAux acc l).Nodup := by
  induction l with
  | nil => intro acc h; simpa [jsDedupAux] using h
  | cons x l ih =>
    intro acc h
    by_cases hx : x ∈ acc
    · rw [jsDedupAux, if_pos hx]; exact ih acc h
    · rw [jsDedupAux, if_neg hx]
      refine ih _ ?_
      simp [List.nodup_append, h, hx]

theorem jsDedupAux_sublist (l : List String) : ∀ acc : List String,
    ∃ m, jsDedupAux acc l = acc ++ m ∧ List.Sublist m l := by
  induction l with
  | nil => intro acc; exact ⟨[], by simp [jsDedupAux], List.nil_sublist _⟩
  | cons x l ih =>
    intro acc
    by_cases hx : x ∈ acc
    · obtain ⟨m, hm, hs⟩ := ih acc
      exact ⟨m, by rw [jsDedupAux, if_pos hx, hm], hs.cons x⟩
    · obtain ⟨m, hm, hs⟩ := ih (acc ++ [x])
      refine ⟨x :: m, ?_, hs.cons₂ x⟩
      rw [jsDedupAux, if_neg hx, hm, List.append_assoc]
      rfl

theorem jsDedupAux_filter (l : List String) : ∀ (acc : List String) (x : String),
    x ∈ acc →
      jsDedupAux acc l = jsDedupAux acc (l.filter (fun y => y != x)) := by
  induction l with
  | nil => intro acc x _; rfl
  | cons z l ih =>
    intro acc x hx
    by_cases hz : z = x
    · subst hz
      have hfz : (z :: l).filter (fun y => y != z) = l.filter (fun y => y != z) := by
        simp [List.filter]
      rw [hfz, jsDedupAux, if_pos hx, ih acc z hx]
    · have hzb : (z != x) = true := bne_iff_ne.mpr hz
      have hfz : (z :: l).filter (fun y => y != x)
          = z :: l.filter (fun y => y != x) := by
        simp [List.filter_cons, hzb]
      rw [hfz]
      by_cases hzacc : z ∈ acc
      · rw [jsDedupAux, if_pos hzacc, jsDedupAux, if_pos hzacc, ih acc x hx]
      · rw [jsDedupAux, if_neg hzacc, jsDedupAux, if_neg hzacc,
          ih (acc ++ [z]) x (List.mem_append_left _ hx)]

theorem jsDedupAux_cons_head (l : List String) : ∀ (acc : List String) (x : String),
    (∀ y ∈ l, y ≠ x) →
      jsDedupAux (x :: acc) l = x :: jsDedupAux acc l := by
  induction l with
  | nil => intro acc x _; rfl
  | cons z l ih =>
    intro acc x h
    have hz : z ≠ x := h z (List.mem_cons_self _ _)
    have hmem : z ∈ x :: acc ↔ z ∈ acc := by
      simp [List.mem_cons, hz]
    by_cases hzacc : z ∈ acc
    · rw [jsDedupAux, if_pos (hmem.mpr hzacc), jsDedupAux, if_pos hzacc]
      exact ih acc x (fun y hy => h y (List.mem_cons_of_mem _ hy))
    · rw [jsDedupAux, if_neg (fun hc => hzacc (hmem.mp hc)), jsDedupAux,
        if_neg hzacc]
      have : (x :: acc) ++ [z] = x :: (acc ++ [z]) := rfl
      rw [this]
      exact ih (acc ++ [z]) x (fun y hy => h y (List.mem_cons_of_mem _ hy))

theorem jsSetDedup_cons (x : String) (l : List String) :
    jsSetDedup (x :: l) = x :: jsSetDedup (l.filter (fun y => y != x)) := by
  have h1 : jsSetDedup (x :: l) = jsDedupAux [x] l := by
    rw [jsSetDedup, jsDedupAux, if_neg (List.not_mem_nil x)]
    rfl
  have h2 : jsDedupAux [x] l = jsDedupAux [x] (l.filter (fun y => y != x)) :=
    jsDedupAux_filter l [x] x (List.mem_singleton_self x)
  have h3 : ∀ y ∈ l.filter (fun y => y != x), y ≠ x := by
    intro y hy
    have := List.of_mem_filter hy
    simpa using this
  rw [h1, h2, jsDedupAux_cons_head _ [] x h3]
  rfl

theorem mem_jsSetDedup (l : List String) (y : String) :
    y ∈ jsSetDedup l ↔ y ∈ l := by
  rw [jsSetDedup, mem_jsDedupAux]
  simp

theorem nodup_jsSetDedup (l : List String) : (jsSetDedup l).Nodup :=
  nodup_jsDedupAux l [] List.nodup_nil

theorem jsSetDedup_sublist (l : List String) :
    List.Sublist (jsSetDedup l) l := by
  obtain ⟨m, hm, hs⟩ := jsDedupAux_sublist l []
  rw [jsSetDedup, hm]
  simpa using hs

/-! Unfolding lemmas for the fan-out and the node. -/

theorem processBranches_cons_toolError {recur} {tool : Tool}
    {breadth depth : Nat} {learnings sources : List String}
    {q : Question} {qs : List Question} {p : ResearchProgress} {e : String}
    (hex : tool.execute q.question = Except.error e) :
    processBranches recur tool breadth depth learnings sources (q :: qs) p =
      ((processBranches recur tool breadth depth learnings sources qs p).1.map
          (fun rs => emptyBranchResult :: rs),
        (processBranches recur tool breadth depth learnings sources qs p).2.1,
        (processBranches recur tool breadth depth learnings sources qs p).2.2) := by
  rw [processBranches, hex]

theorem processBranches_cons_leaf {recur} {tool : Tool}
    {breadth depth : Nat} {learnings sources : List String}
    {q : Question} {qs : List Question} {p : ResearchProgress}
    {response : AgentResponse}
    (hex : tool.execute q.question = Except.ok response)
    (hd : childDepth depth = 0) :
    processBranches recur tool breadth depth learnings sources (q :: qs) p =
      ((processBranches recur tool breadth depth learnings sources qs
            (leafReport p q)).1.map
          (fun rs =>
            leafResult (learnings ++ (processAgentResponse response).learnings)
              (sources ++ (processAgentResponse response).sources)
              (processAgentResponse response).compliance_score :: rs),
        (processBranches recur tool breadth depth learnings sources qs
            (leafReport p q)).2.1,
        leafReport p q ::
          (processBranches recur tool breadth depth learnings sources qs
            (leafReport p q)).2.2) := by
  rw [processBranches, hex]
  simp [hd]

theorem processBranches_cons_recurError {recur} {tool : Tool}
    {breadth depth : Nat} {learnings sources : List String}
    {q : Question} {qs : List Question} {p : ResearchProgress}
    {response : AgentResponse} {e : String} {sub : List ResearchProgress}
    (hex : tool.execute q.question = Except.ok response)
    (hd : 0 < childDepth depth)
    (hrec : recur (followUpQuery response q) (childBreadth breadth)
        (childDepth depth)
        (learnings ++ (processAgentResponse response).learnings)
        (sources ++ (processAgentResponse response).sources) =
        (Except.error e, sub)) :
    processBranches recur tool breadth depth learnings sources (q :: qs) p =
      (Except.error e, recurseReport p breadth depth q,
        recurseReport p breadth depth q :: sub) := by
  rw [processBranches, hex]
  simp only [if_pos hd, hrec]

theorem processBranches_cons_recurOk {recur} {tool : Tool}
    {breadth depth : Nat} {learnings sources : List String}
    {q : Question} {qs : List Question} {p : ResearchProgress}
    {response : AgentResponse} {r : ResearchResult}
    {sub : List ResearchProgress}
    (hex : tool.execute q.question = Except.ok response)
    (hd : 0 < childDepth depth)
    (hrec : recur (followUpQuery response q) (childBreadth breadth)
        (childDepth depth)
        (learnings ++ (processAgentResponse response).learnings)
        (sources ++ (processAgentResponse response).sources) =
        (Except.ok r, sub)) :
    processBranches recur tool breadth depth learnings sources (q :: qs) p =
      ((processBranches recur tool breadth depth learnings sources qs
            (recurseReport p breadth depth q)).1.map (fun rs => r :: rs),
        (processBranches recur tool breadth depth learnings sources qs
            (recurseReport p breadth depth q)).2.1,
        (recurseReport p breadth depth q :: sub) ++
          (processBranches recur tool breadth depth learnings sources qs
            (recurseReport p breadth depth q)).2.2) := by
  rw [processBranches, hex]
  simp only [if_pos hd, hrec]

theorem processBranches_congr {recur₁ recur₂} {tool : Tool}
    {breadth depth : Nat} {learnings sources : List String}
    (h : 0 < childDepth depth → ∀ q b l s,
      recur₁ q b (childDepth depth) l s = recur₂ q b (childDepth depth) l s) :
    ∀ (qs : List Question) (p : ResearchProgress),
      processBranches recur₁ tool breadth depth learnings sources qs p =
      processBranches recur₂ tool breadth depth learnings sources qs p := by
  intro qs
  induction qs with
  | nil => intro p; rfl
  | cons q qs ih =>
    intro p
    cases hex : tool.execute q.question with
    | error e =>
      rw [processBranches_cons_toolError hex, processBranches_cons_toolError hex,
        ih]
    | ok response =>
      by_cases hd : 0 < childDepth depth
      · cases hrec : recur₁ (followUpQuery response q) (childBreadth breadth)
            (childDepth depth)
            (learnings ++ (processAgentResponse response).learnings)
            (sources ++ (processAgentResponse response).sources) with
        | mk res sub =>
          have hrec₂ := (h hd _ _ _ _).symm.trans hrec
          cases res with
          | error e =>
            rw [processBranches_cons_recurError hex hd hrec,
              processBranches_cons_recurError hex hd hrec₂]
          | ok r =>
            rw [processBranches_cons_recurOk hex hd hrec,
              processBranches_cons_recurOk hex hd hrec₂, ih]
      · have hd0 : childDepth depth = 0 := Nat.eq_zero_of_not_pos hd
        rw [processBranches_cons_leaf hex hd0, processBranches_cons_leaf hex hd0,
          ih]

theorem deepResearchNode_classifyError {env : Env} {query : String}
    {breadth depth : Nat} {learnings sources : List String} {recur} {e : String}
    (h : determineResearchTool env query = Except.error e) :
    deepResearchNode env recur query breadth depth learnings sources =
      (Except.error e, []) := by
  rw [deepResearchNode, h]

theorem deepResearchNode_generateError {env : Env} {query : String}
    {breadth depth : Nat} {learnings sources : List String} {recur}
    {tool : Tool} {e : String}
    (h : determineResearchTool env query = Except.ok tool)
    (hg : generateFollowUpQuestions env query tool.description breadth
        learnings = Except.error e) :
    deepResearchNode env recur query breadth depth learnings sources =
      (Except.error e, []) := by
  simp only [deepResearchNode, h, hg]

theorem deepResearchNode_ok {env : Env} {query : String}
    {breadth depth : Nat} {learnings sources : List String} {recur}
    {tool : Tool} {questions : List Question}
    (h : determineResearchTool env query = Except.ok tool)
    (hg : generateFollowUpQuestions env query tool.description breadth
        learnings = Except.ok questions) :
    deepResearchNode env recur query breadth depth learnings sources =
      (match (processBranches recur tool breadth depth learnings sources
          questions (firstReport breadth depth questions)).1 with
        | Except.error e => (Except.error e,
            firstReport breadth depth questions ::
              (processBranches recur tool breadth depth learnings sources
                questions (firstReport breadth depth questions)).2.2)
        | Except.ok rs => (Except.ok (combineResults rs),
            firstReport breadth depth questions ::
              (processBranches recur tool breadth depth learnings sources
                questions (firstReport breadth depth questions)).2.2)) := by
  simp only [deepResearchNode, h, hg]

theorem deepResearchNode_congr {env : Env} {recur₁ recur₂} {query : String}
    {breadth depth : Nat} {learnings sources : List String}
    (h : 0 < childDepth depth → ∀ q b l s,
      recur₁ q b (childDepth depth) l s = recur₂ q b (childDepth depth) l s) :
    deepResearchNode env recur₁ query breadth depth learnings sources =
      deepResearchNode env recur₂ query breadth depth learnings sources := by
  unfold deepResearchNode
  split
  · rfl
  · split
    · rfl
    · simp only [processBranches_congr h]

theorem deepResearch_eq_node (env : Env) (query : String) (breadth depth : Nat)
    (learnings sources : List String) :
    deepResearch env query breadth depth learnings sources =
      deepResearchNode env
        (fun q' b' d' l' s' => deepResearchAux env (childDepth depth) q' b' d' l' s')
        query breadth depth learnings sources := by
  cases depth with
  | zero =>
    exact deepResearchNode_congr (fun hd => absurd hd (by simp [childDepth]))
  | succ n => rfl

theorem deepResearchAux_fuel (env : Env) :
    ∀ (depth fuel : Nat), depth ≤ fuel →
      ∀ (query : String) (breadth : Nat) (learnings sources : List String),
        deepResearchAux env fuel query breadth depth learnings sources =
          deepResearch env query breadth depth learnings sources := by
  intro depth
  induction depth using Nat.strong_induction_on with
  | _ depth ih =>
    intro fuel hf query breadth learnings sources
    cases fuel with
    | zero =>
      have hd0 : depth = 0 := Nat.le_zero.mp hf
      subst hd0
      rfl
    | succ f =>
      show deepResearchNode env (deepResearchAux env f) query breadth depth
          learnings sources = _
      rw [deepResearch_eq_node]
      refine deepResearchNode_congr ?_
      intro hd q' b' l' s'
      have hlt : childDepth depth < depth := by
        unfold childDepth at hd ⊢
        omega
      have hle₁ : childDepth depth ≤ f := by
        unfold childDepth at hd ⊢
        omega
      rw [ih (childDepth depth) hlt f hle₁ q' b' l' s',
        ih (childDepth depth) hlt (childDepth depth) (Nat.le_refl _) q' b' l' s']

theorem processBranches_error_of_branch_error {recur} {tool : Tool}
    {breadth depth : Nat} {learnings sources : List String}
    {q : Question} {response : AgentResponse} {e : String}
    (hex : tool.execute q.question = Except.ok response)
    (hd : 0 < childDepth depth)
    (hrec : (recur (followUpQuery response q) (childBreadth breadth)
        (childDepth depth)
        (learnings ++ (processAgentResponse response).learnings)
        (sources ++ (processAgentResponse response).sources)).1 =
        Except.error e) :
    ∀ (qs : List Question) (p : ResearchProgress), q ∈ qs →
      ∃ e', (processBranches recur tool breadth depth learnings sources
        qs p).1 = Except.error e' := by
  intro qs
  induction qs with
  | nil => intro p hmem; cases hmem
  | cons q0 qs ih =>
    intro p hmem
    rcases List.mem_cons.mp hmem with hq | hq
    · subst hq
      rcases hre : recur (followUpQuery response q) (childBreadth breadth)
          (childDepth depth)
          (learnings ++ (processAgentResponse response).learnings)
          (sources ++ (processAgentResponse response).sources) with ⟨res, sub⟩
      rw [hre] at hrec
      have hres : res = Except.error e := hrec
      rw [hres] at hre
      exact ⟨e, by rw [processBranches_cons_recurError hex hd hre]⟩
    · cases hex0 : tool.execute q0.question with
      | error e0 =>
        obtain ⟨e', he'⟩ := ih p hq
        exact ⟨e', by rw [processBranches_cons_toolError hex0, he']; rfl⟩
      | ok resp0 =>
        rcases hre0 : recur (followUpQuery resp0 q0) (childBreadth breadth)
            (childDepth depth)
            (learnings ++ (processAgentResponse resp0).learnings)
            (sources ++ (processAgentResponse resp0).sources) with ⟨res0, sub0⟩
        cases res0 with
        | error e0 =>
          exact ⟨e0, by rw [processBranches_cons_recurError hex0 hd hre0]⟩
        | ok r0 =>
          obtain ⟨e', he'⟩ := ih (recurseReport p breadth depth q0) hq
          exact ⟨e', by rw [processBranches_cons_recurOk hex0 hd hre0, he']; rfl⟩

theorem processBranches_all_fail {recur} {tool : Tool}
    {breadth depth : Nat} {learnings sources : List String} :
    ∀ (qs : List Question) (p : ResearchProgress),
      (∀ q ∈ qs, ∃ e, tool.execute q.question = Except.error e) →
      processBranches recur tool breadth depth learnings sources qs p =
        (Except.ok (List.replicate qs.length emptyBranchResult), p, []) := by
  intro qs
  induction qs with
  | nil => intro p _; rfl
  | cons q qs ih =>
    intro p h
    obtain ⟨e, he⟩ := h q (List.mem_cons_self _ _)
    rw [processBranches_cons_toolError he,
      ih p (fun q' hq' => h q' (List.mem_cons_of_mem _ hq'))]
    simp [Except.map, List.replicate_succ]

theorem flatMap_emptyBranch_replicate {α : Type} (n : Nat)
    (f : ResearchResult → List α) (hf : f emptyBranchResult = []) :
    (List.replicate n emptyBranchResult).flatMap f = [] := by
  induction n with
  | zero => rfl
  | succ n ih => simp [List.replicate_succ, List.flatMap_cons, hf, ih]

theorem combineResults_replicate_empty (n : Nat) :
    combineResults (List.replicate n emptyBranchResult) =
      { learnings := [], sources := [], compliance_scores := some [] } := by
  rw [combineResults, flatMap_emptyBranch_replicate n _ rfl,
    flatMap_emptyBranch_replicate n _ rfl, flatMap_emptyBranch_replicate n _ rfl]
  rfl

theorem processBranches_isolate {recur} {tool : Tool}
    {breadth depth : Nat} {learnings sources : List String}
    {q : Question} {e : String}
    (hex : tool.execute q.question = Except.error e) :
    ∀ (pre post : List Question) (p : ResearchProgress),
      processBranches recur tool breadth depth learnings sources
          (pre ++ q :: post) p =
        ((processBranches recur tool breadth depth learnings sources
            (pre ++ post) p).1.map
            (fun rs => rs.take pre.length ++
              emptyBranchResult :: rs.drop pre.length),
          (processBranches recur tool breadth depth learnings sources
            (pre ++ post) p).2.1,
          (processBranches recur tool breadth depth learnings sources
            (pre ++ post) p).2.2) := by
  intro pre
  induction pre with
  | nil =>
    intro post p
    rw [List.nil_append, List.nil_append, processBranches_cons_toolError hex]
    cases hr : (processBranches recur tool breadth depth learnings sources
        post p).1 with
    | error e' => simp [hr, Except.map]
    | ok rs => simp [hr, Except.map, List.take_succ_cons, List.drop_succ_cons]
  | cons q0 pre ih =>
    intro post p
    rw [List.cons_append, List.cons_append]
    cases hex0 : tool.execute q0.question with
    | error e0 =>
      rw [processBranches_cons_toolError hex0,
        processBranches_cons_toolError hex0, ih post p]
      cases hr : (processBranches recur tool breadth depth learnings sources
          (pre ++ post) p).1 with
      | error e' => simp [hr, Except.map]
      | ok rs => simp [hr, Except.map, List.take_succ_cons, List.drop_succ_cons]
    | ok resp0 =>
      by_cases hdp : 0 < childDepth depth
      · rcases hre0 : recur (followUpQuery resp0 q0) (childBreadth breadth)
            (childDepth depth)
            (learnings ++ (processAgentResponse resp0).learnings)
            (sources ++ (processAgentResponse resp0).sources) with ⟨res0, sub0⟩
        cases res0 with
        | error e0 =>
          rw [processBranches_cons_recurError hex0 hdp hre0,
            processBranches_cons_recurError hex0 hdp hre0]
          rfl
        | ok r0 =>
          rw [processBranches_cons_recurOk hex0 hdp hre0,
            processBranches_cons_recurOk hex0 hdp hre0,
            ih post (recurseReport p breadth depth q0)]
          cases hr : (processBranches recur tool breadth depth learnings
              sources (pre ++ post) (recurseReport p breadth depth q0)).1 with
          | error e' => simp [hr, Except.map]
          | ok rs => simp [hr, Except.map, List.take_succ_cons, List.drop_succ_cons]
      · have hd0 : childDepth depth = 0 := by omega
        rw [processBranches_cons_leaf hex0 hd0,
          processBranches_cons_leaf hex0 hd0, ih post (leafReport p q0)]
        cases hr : (processBranches recur tool breadth depth learnings sources
            (pre ++ post) (leafReport p q0)).1 with
        | error e' => simp [hr, Except.map]
        | ok rs => simp [hr, Except.map, List.take_succ_cons, List.drop_succ_cons]

theorem combineResults_insert_empty (rs : List ResearchResult) (k : Nat) :
    combineResults (rs.take k ++ emptyBranchResult :: rs.drop k) =
      combineResults rs := by
  have key : ∀ {α : Type} (f : ResearchResult → List α),
      f emptyBranchResult = [] →
      (rs.take k ++ emptyBranchResult :: rs.drop k).flatMap f = rs.flatMap f := by
    intro α f hf
    rw [List.flatMap_append, List.flatMap_cons, hf, List.nil_append,
      ← List.flatMap_append, List.take_append_drop]
  rw [combineResults, combineResults, key _ rfl, key _ rfl, key _ rfl]

theorem processBranches_completed_monotone {recur} {tool : Tool}
    {breadth depth : Nat} {learnings sources : List String}
    (hd : childDepth depth = 0) :
    ∀ (qs : List Question) (p : ResearchProgress),
      List.Chain' (· ≤ ·) (p.completedQueries ::
        ((processBranches recur tool breadth depth learnings sources
          qs p).2.2).map (fun pr => pr.completedQueries)) := by
  intro qs
  induction qs with
  | nil => intro p; simp [processBranches]
  | cons q qs ih =>
    intro q0p
    cases hex : tool.execute q.question with
    | error e =>
      rw [processBranches_cons_toolError hex]
      exact ih q0p
    | ok response =>
      rw [processBranches_cons_leaf hex hd]
      rw [List.map_cons]
      refine List.chain'_cons.mpr ⟨?_, ih (leafReport q0p q)⟩
      exact Nat.le_succ _

theorem deepResearchNode_trace_ok {env : Env} {query : String}
    {breadth depth : Nat} {learnings sources : List String} {recur}
    {tool : Tool} {questions : List Question}
    (h : determineResearchTool env query = Except.ok tool)
    (hg : generateFollowUpQuestions env query tool.description breadth
        learnings = Except.ok questions) :
    (deepResearchNode env recur query breadth depth learnings sources).2 =
      firstReport breadth depth questions ::
        (processBranches recur tool breadth depth learnings sources questions
          (firstReport breadth depth questions)).2.2 := by
  rw [deepResearchNode_ok h hg]
  cases (processBranches recur tool breadth depth learnings sources questions
    (firstReport breadth depth questions)).1 with
  | error e => rfl
  | ok rs => rfl

/-- Claim C4: for every completed fan-out the aggregation deduplicates
learnings and sources by string equality (the aggregated lists are duplicate
free and hold exactly the strings of the flattened branch lists; concretely,
raw branch learnings A, A, B collapse to exactly the two members A and B
regardless of input order), while compliance scores are not deduplicated: the
per-branch score lists are concatenated as they are. -/
theorem claim_C4 :
    (∀ rs : List ResearchResult,
      (combineResults rs).learnings.Nodup ∧
        ∀ x, x ∈ (combineResults rs).learnings ↔
          x ∈ rs.flatMap (fun r => r.learnings)) ∧
    (∀ rs : List ResearchResult,
      (combineResults rs).sources.Nodup ∧
        ∀ x, x ∈ (combineResults rs).sources ↔
          x ∈ rs.flatMap (fun r => r.sources)) ∧
    (∀ rs : List ResearchResult,
      (combineResults rs).compliance_scores =
        some (rs.flatMap (fun r => r.compliance_scores.getD []))) ∧
    (∀ l : List String, l.Perm ["A", "A", "B"] →
      (jsSetDedup l).length = 2 ∧
        ∀ x, x ∈ jsSetDedup l ↔ (x = "A" ∨ x = "B")) := by
  refine ⟨?_, ?_, ?_, ?_⟩
  · intro rs
    exact ⟨nodup_jsSetDedup _, fun x => mem_jsSetDedup _ x⟩
  · intro rs
    exact ⟨nodup_jsSetDedup _, fun x => mem_jsSetDedup _ x⟩
  · intro rs
    rfl
  · intro l hp
    have hmem : ∀ x, x ∈ jsSetDedup l ↔ (x = "A" ∨ x = "B") := by
      intro x
      rw [mem_jsSetDedup, hp.mem_iff]
      simp
    refine ⟨?_, hmem⟩
    have hperm : (jsSetDedup l).Perm ["A", "B"] := by
      rw [List.perm_ext_iff_of_nodup (nodup_jsSetDedup l) (by decide)]
      intro a
      rw [hmem a]
      simp
    simpa using hperm.length_eq

/-- Witness for C4 at the concrete permuted raw-learnings input B, A, A. -/
theorem claim_C4_witness :
    List.Perm ["B", "A", "A"] ["A", "A", "B"] ∧
      (jsSetDedup ["B", "A", "A"]).length = 2 :=
  ⟨by decide, (claim_C4.2.2.2 ["B", "A", "A"] (by decide)).1⟩

/-- Claim C6: every successful branch recurses with childBreadth equal to
ceil(breadth / 2) and childDepth equal to depth - 1 (these are the definitions
processBranches passes to the recursive call); for breadth at least 1 the
child breadth never increases, never reaches 0, and stays at least 1 under any
number of halvings down the tree. -/
theorem claim_C6 :
    (∀ b : Nat, (childBreadth b : ℤ) = Int.ceil ((b : ℚ) / 2)) ∧
    (∀ b : Nat, 1 ≤ b → 1 ≤ childBreadth b ∧ childBreadth b ≤ b) ∧
    (∀ n b : Nat, 1 ≤ b → 1 ≤ childBreadth^[n] b) ∧
    (∀ d : Nat, childDepth d = d - 1) := by
  refine ⟨?_, ?_, ?_, fun d => rfl⟩
  · intro b
    have h1 : b ≤ 2 * childBreadth b := by unfold childBreadth; omega
    have h2 : 2 * childBreadth b ≤ b + 1 := by unfold childBreadth; omega
    have h1q : (b : ℚ) ≤ 2 * (childBreadth b : ℚ) := by exact_mod_cast h1
    have h2q : 2 * (childBreadth b : ℚ) ≤ (b : ℚ) + 1 := by exact_mod_cast h2
    symm
    rw [Int.ceil_eq_iff]
    constructor
    · push_cast
      linarith
    · push_cast
      linarith
  · intro b hb
    unfold childBreadth
    omega
  · intro n
    induction n with
    | zero => intro b hb; simpa using hb
    | succ n ih =>
      intro b hb
      rw [Function.iterate_succ_apply]
      refine ih _ ?_
      unfold childBreadth
      omega

/-- Witness for C6 at breadth 5 with three halvings. -/
theorem claim_C6_witness :
    (1 : Nat) ≤ 5 ∧ 1 ≤ childBreadth 5 ∧ childBreadth 5 ≤ 5 ∧
      1 ≤ childBreadth^[3] 5 :=
  ⟨by decide, (claim_C6.2.1 5 (by decide)).1, (claim_C6.2.1 5 (by decide)).2,
    claim_C6.2.2.1 3 5 (by decide)⟩

/-- Claim C9 (implicit): given fixed branch results the aggregation is a pure
function of the branch-result list in follow-up-question submission order
(Promise.all order preservation is modelled by construction: processBranches
conses each branch result at its question's position independently of any
completion interleaving), and the Set based deduplication keeps each distinct
string at the position of its first occurrence: it satisfies the
first-occurrence recursion and returns an order-preserving subsequence of its
input. -/
theorem claim_C9 :
    (∀ (x : String) (l : List String),
      jsSetDedup (x :: l) = x :: jsSetDedup (l.filter (fun y => y != x))) ∧
    (∀ l : List String, List.Sublist (jsSetDedup l) l) ∧
    (∀ rs : List ResearchResult,
      (combineResults rs).learnings =
          jsSetDedup (rs.flatMap (fun r => r.learnings)) ∧
        (combineResults rs).sources =
          jsSetDedup (rs.flatMap (fun r => r.sources))) :=
  ⟨jsSetDedup_cons, jsSetDedup_sublist, fun _ => ⟨rfl, rfl⟩⟩

/-- Claim C1: oracle errors are fatal and propagate.  A failing tool-selection
call (conjunct 1) or question-generation call (conjunct 2) rejects the node;
and a rejected recursive child call rejects the parent instead of being caught
or aggregated (conjunct 3; in the source the recursive call is returned
without await, so its rejection bypasses the per-branch catch, rejects
Promise.all, and the node's own promise rejects).  Applied along the recursion
path, an oracle error at any node reaches the top-level caller as a rejection
rather than an aggregated result. -/
theorem claim_C1 :
    (∀ (env : Env) (query : String) (b d : Nat) (l s : List String)
        (e : String),
      determineResearchTool env query = Except.error e →
        (deepResearch env query b d l s).1 = Except.error e) ∧
    (∀ (env : Env) (query : String) (b d : Nat) (l s : List String)
        (tool : Tool) (e : String),
      determineResearchTool env query = Except.ok tool →
        generateFollowUpQuestions env query tool.description b l =
          Except.error e →
        (deepResearch env query b d l s).1 = Except.error e) ∧
    (∀ (env : Env) (query : String) (b d : Nat) (l s : List String)
        (tool : Tool) (qs : List Question) (q : Question)
        (response : AgentResponse) (e : String),
      determineResearchTool env query = Except.ok tool →
      generateFollowUpQuestions env query tool.description b l =
        Except.ok qs →
      q ∈ qs →
      tool.execute q.question = Except.ok response →
      0 < childDepth d →
      (deepResearch env (followUpQuery response q) (childBreadth b)
          (childDepth d) (l ++ (processAgentResponse response).learnings)
          (s ++ (processAgentResponse response).sources)).1 =
        Except.error e →
      ∃ e', (deepResearch env query b d l s).1 = Except.error e') := by
  refine ⟨?_, ?_, ?_⟩
  · intro env query b d l s e h
    rw [deepResearch_eq_node, deepResearchNode_classifyError h]
  · intro env query b d l s tool e h hg
    rw [deepResearch_eq_node, deepResearchNode_generateError h hg]
  · intro env query b d l s tool qs q response e hdet hgen hmem hex hd hrec
    obtain ⟨e', he'⟩ :=
      @processBranches_error_of_branch_error
        (fun q' b' d' l' s' =>
          deepResearchAux env (childDepth d) q' b' d' l' s')
        tool b d l s q response e hex hd hrec qs (firstReport b d qs) hmem
    refine ⟨e', ?_⟩
    rw [deepResearch_eq_node, deepResearchNode_ok hdet hgen, he']

/-- Witness for C1: a concrete depth-2 run whose child-level question oracle
fails rejects at the top level. -/
theorem claim_C1_witness :
    ∃ e', (deepResearch envChildOracleDown "root" 1 2 [] []).1 =
      Except.error e' :=
  claim_C1.2.2 envChildOracleDown "root" 1 2 [] [] toolT [qOne] qOne
    { content := "ans", source := none, compliance_score := none }
    "child oracle down" rfl rfl (List.mem_singleton_self qOne) rfl
    (by decide) rfl

/-- Claim C2: a single failing tool call is isolated to its branch.  The
branch's result degrades to the catch value (empty learnings, sources and
compliance scores), spliced in at the branch's position, while every other
branch's result is exactly what it would be with the failing question absent
(conjunct 1); consequently a node whose remaining branches all resolve still
aggregates them and resolves without throwing (conjunct 2). -/
theorem claim_C2 :
    (∀ {recur} (tool : Tool) (b d : Nat) (l s : List String)
        (q : Question) (e : String) (pre post : List Question)
        (p : ResearchProgress),
      tool.execute q.question = Except.error e →
      processBranches recur tool b d l s (pre ++ q :: post) p =
        ((processBranches recur tool b d l s (pre ++ post) p).1.map
            (fun rs => rs.take pre.length ++
              emptyBranchResult :: rs.drop pre.length),
          (processBranches recur tool b d l s (pre ++ post) p).2.1,
          (processBranches recur tool b d l s (pre ++ post) p).2.2)) ∧
    (∀ (env : Env) (query : String) (b d : Nat) (l s : List String)
        (tool : Tool) (q : Question) (e : String) (pre post : List Question)
        (rs : List ResearchResult),
      determineResearchTool env query = Except.ok tool →
      generateFollowUpQuestions env query tool.description b l =
        Except.ok (pre ++ q :: post) →
      tool.execute q.question = Except.error e →
      (processBranches (fun q' b' d' l' s' =>
          deepResearchAux env (childDepth d) q' b' d' l' s') tool b d l s
          (pre ++ post) (firstReport b d (pre ++ q :: post))).1 =
        Except.ok rs →
      (deepResearch env query b d l s).1 =
        Except.ok (combineResults rs)) := by
  constructor
  · intro recur tool b d l s q e pre post p hex
    exact processBranches_isolate hex pre post p
  · intro env query b d l s tool q e pre post rs hdet hgen hex hPB
    rw [deepResearch_eq_node, deepResearchNode_ok hdet hgen,
      processBranches_isolate hex pre post (firstReport b d (pre ++ q :: post)),
      hPB]
    show Except.ok (combineResults
      (rs.take pre.length ++ emptyBranchResult :: rs.drop pre.length)) = _
    rw [combineResults_insert_empty]

/-- Witness for C2: with two follow-up questions of which exactly the first
one's tool call throws, the run resolves to the aggregation of the surviving
second branch. -/
theorem claim_C2_witness :
    (deepResearch envOneBranchFails "root" 2 1 [] []).1 =
      Except.ok (combineResults
        [(⟨["cb"], ["doc (p)"], some ["s1"]⟩ : ResearchResult)]) :=
  claim_C2.2 envOneBranchFails "root" 2 1 [] [] toolPartial qOne "tool down"
    [] [qTwo] [(⟨["cb"], ["doc (p)"], some ["s1"]⟩ : ResearchResult)]
    rfl rfl rfl rfl

/-- Claim C3, amended: completedQueries is non-decreasing across the snapshots
reported by one deepResearch activation (each successful branch increments the
activation's own counter by one, and failed branches report nothing); but each
recursive call allocates a fresh progress object restarting completedQueries
at 0, so only for runs of depth at most 1 (which perform no recursion) is the
whole observer stream non-decreasing. -/
theorem claim_C3 (env : Env) (query : String) (b d : Nat)
    (l s : List String) (hd : d ≤ 1) :
    List.Chain' (· ≤ ·)
      ((deepResearch env query b d l s).2.map
        (fun pr => pr.completedQueries)) := by
  have hd0 : childDepth d = 0 := by unfold childDepth; omega
  rw [deepResearch_eq_node]
  cases hdet : determineResearchTool env query with
  | error e => rw [deepResearchNode_classifyError hdet]; simp
  | ok tool =>
    cases hgen : generateFollowUpQuestions env query tool.description b l with
    | error e => rw [deepResearchNode_generateError hdet hgen]; simp
    | ok qs =>
      rw [deepResearchNode_trace_ok hdet hgen, List.map_cons]
      exact processBranches_completed_monotone hd0 qs (firstReport b d qs)

/-- Witness for C3 (amended) at a concrete depth-1 run. -/
theorem claim_C3_witness :
    List.Chain' (· ≤ ·)
      ((deepResearch envOk "root" 2 1 [] []).2.map
        (fun pr => pr.completedQueries)) :=
  claim_C3 envOk "root" 2 1 [] [] (by decide)

/-- Counterexample to claim C3 as stated: in a depth-2 run in which every
oracle and tool call succeeds with one follow-up question per node, the root
branch reports completedQueries = 1 and the recursive child then reports
completedQueries = 0 from its freshly allocated progress object, so the
observer stream is 0, 1, 0, 1 and is not non-decreasing. -/
theorem claim_C3_counterexample :
    ¬ List.Chain' (· ≤ ·)
      ((deepResearch envOk "root" 1 2 [] []).2.map
        (fun pr => pr.completedQueries)) := by
  have h : ((deepResearch envOk "root" 1 2 [] []).2.map
      (fun pr => pr.completedQueries)) = [0, 1, 0, 1] := rfl
  rw [h, List.chain'_cons, List.chain'_cons]
  rintro ⟨-, h10, -⟩
  exact absurd h10 (by decide)

/-- Claim C5, amended: a leaf branch (decremented depth 0) whose tool call
succeeds yields exactly parentLearnings extended with the response content and
parentSources extended with the formatted "name (path)" citation strings; the
compliance field is the one-element list of the score when the response
carries a non-empty one, and otherwise the field is absent (undefined) rather
than the empty list (only the later aggregation reads the absent field as
[]). -/
theorem claim_C5 {recur} (tool : Tool) (b d : Nat) (l s : List String)
    (q : Question) (qs : List Question) (p : ResearchProgress)
    (response : AgentResponse)
    (hex : tool.execute q.question = Except.ok response)
    (hd : childDepth d = 0) :
    processBranches recur tool b d l s (q :: qs) p =
      ((processBranches recur tool b d l s qs (leafReport p q)).1.map
          (fun rs =>
            { learnings := l ++ [response.content],
              sources := s ++ ((response.source.map
                  (fun cs => cs.map formatSource)).getD []),
              compliance_scores :=
                match response.compliance_score with
                | some sc => if sc = "" then none else some [sc]
                | none => none } :: rs),
        (processBranches recur tool b d l s qs (leafReport p q)).2.1,
        leafReport p q ::
          (processBranches recur tool b d l s qs (leafReport p q)).2.2) := by
  rw [processBranches_cons_leaf hex hd]
  rfl

/-- Witness for C5 (amended) at a concrete leaf branch with accumulated
parent learnings and sources and no compliance score on the response. -/
theorem claim_C5_witness :
    processBranches noRecur toolT 1 1 ["P"] ["S"] [qOne]
        (initialProgress 1 1) =
      (Except.ok [(⟨["P", "ans"], ["S"], none⟩ : ResearchResult)],
        leafReport (initialProgress 1 1) qOne,
        [leafReport (initialProgress 1 1) qOne]) := by
  rw [claim_C5 toolT 1 1 ["P"] ["S"] qOne [] (initialProgress 1 1)
    { content := "ans", source := none, compliance_score := none } rfl rfl]
  rfl

/-- Counterexample to claim C5 as stated: a successful leaf branch whose
response carries no compliance score produces a branch result whose
compliance_scores field is absent (undefined, modelled as none), which is not
the empty list the claim asserts. -/
theorem claim_C5_counterexample :
    (processBranches noRecur toolT 1 1 [] [] [qOne]
        (initialProgress 1 1)).1 =
      Except.ok [(⟨["ans"], [], none⟩ : ResearchResult)] ∧
    ({ learnings := ["ans"], sources := [], compliance_scores := none } :
        ResearchResult) ≠
      { learnings := ["ans"], sources := [], compliance_scores := some [] } :=
  ⟨rfl, by decide⟩

/-- Claim C7: the recursion terminates for every depth: each recursive call is
made at childDepth = depth - 1 (conjunct 1), strictly smaller whenever depth
is at least 1 (conjunct 2); the interpreter's value is independent of any
recursion-stack bound of at least depth, i.e. the descent never exceeds depth
levels (conjunct 3); and when the decremented depth is not positive the
fan-out never invokes the recursive call at all, so descent stops at depth 0
(conjunct 4: the fan-out's value does not depend on the recursion function). -/
theorem claim_C7 :
    (∀ d : Nat, childDepth d = d - 1) ∧
    (∀ d : Nat, 1 ≤ d → childDepth d < d) ∧
    (∀ (env : Env) (query : String) (b d : Nat) (l s : List String)
        (fuel : Nat), d ≤ fuel →
      deepResearchAux env fuel query b d l s =
        deepResearch env query b d l s) ∧
    (∀ recur₁ recur₂ (tool : Tool) (b d : Nat) (l s : List String)
        (qs : List Question) (p : ResearchProgress), childDepth d = 0 →
      processBranches recur₁ tool b d l s qs p =
        processBranches recur₂ tool b d l s qs p) := by
  refine ⟨fun d => rfl, ?_, ?_, ?_⟩
  · intro d hd
    unfold childDepth
    omega
  · intro env query b d l s fuel hf
    exact deepResearchAux_fuel env d fuel hf query b l s
  · intro recur₁ recur₂ tool b d l s qs p hd0
    exact processBranches_congr (fun hpos => absurd hpos (by omega)) qs p

/-- Witness for C7: strict depth decrease at depth 2, fuel-independence of a
concrete depth-2 run at stack bound 5, and recursion-function independence of
a concrete depth-1 fan-out. -/
theorem claim_C7_witness :
    childDepth 2 < 2 ∧
      deepResearchAux envOk 5 "root" 1 2 [] [] =
        deepResearch envOk "root" 1 2 [] [] ∧
      processBranches noRecur toolT 1 1 [] [] [qOne] (initialProgress 1 1) =
        processBranches (deepResearchAux envOk 0) toolT 1 1 [] [] [qOne]
          (initialProgress 1 1) :=
  ⟨claim_C7.2.1 2 (by decide),
    claim_C7.2.2.1 envOk "root" 1 2 [] [] 5 (by decide),
    claim_C7.2.2.2 noRecur (deepResearchAux envOk 0) toolT 1 1 [] [] [qOne]
      (initialProgress 1 1) rfl⟩

/-- Claim C10 (implicit): when the generator returns zero questions or every
branch's tool call throws, deepResearch resolves to the empty aggregate
(learnings [], sources [], compliance_scores []) even when invoked with
non-empty accumulated learnings and sources: ancestor findings survive into
the returned result only through at least one successful branch. -/
theorem claim_C10 (env : Env) (query : String) (b d : Nat)
    (l s : List String) (tool : Tool) (qs : List Question)
    (hdet : determineResearchTool env query = Except.ok tool)
    (hgen : generateFollowUpQuestions env query tool.description b l =
      Except.ok qs)
    (hfail : ∀ q ∈ qs, ∃ e, tool.execute q.question = Except.error e) :
    (deepResearch env query b d l s).1 =
      Except.ok (⟨[], [], some []⟩ : ResearchResult) := by
  rw [deepResearch_eq_node, deepResearchNode_ok hdet hgen,
    processBranches_all_fail qs _ hfail]
  show Except.ok (combineResults (List.replicate qs.length emptyBranchResult)) = _
  rw [combineResults_replicate_empty]

/-- Witness for C10: a run called with non-empty learnings and sources whose
two branches both throw resolves to the empty aggregate. -/
theorem claim_C10_witness :
    (deepResearch envAllFail "root" 2 3 ["X"] ["Y"]).1 =
      Except.ok (⟨[], [], some []⟩ : ResearchResult) :=
  claim_C10 envAllFail "root" 2 3 ["X"] ["Y"] toolDown [qOne, qTwo] rfl rfl
    (fun _ _ => ⟨"down", rfl⟩)

end DeepResearch
